import Mathlib

/-!
Shallow embedding of the value decoder of `src/server/value.go`
(`Server.value`), together with the pieces of its environment that it
consumes: the dwarf type-descriptor model, the debug value model, the
memory access port and the architecture decoder.  Reads performed
through the memory access port are logged as `(address, byteCount)`
pairs so that claims about which memory is touched can be stated.
-/

set_option maxRecDepth 100000

namespace GoDebug

/-- The `dwarf.CommonType` data reachable through `Common()`: a byte size
(an `int64` in the source, hence `Int`) and the type's offset, used as a
type identifier (`uint64`, hence `Nat`). -/
structure Common where
  byteSize : Int
  offset : Nat
deriving DecidableEq

/-- One declared field of a struct-shaped dwarf type: name, type and
byte offset (`int64` in the source). -/
structure SFieldG (τ : Type) where
  name : String
  type : τ
  byteOffset : Int

/-- The dwarf type-descriptor variants dispatched on by `Server.value`.
`chanT` carries the channel's internal representation type
(`t.TypedefType.Type` in the source) and the element type; `sliceT`
and `stringT` carry their embedded header-struct field lists; `otherT`
stands for any dwarf variant with no case in the dispatcher, carrying
the name that `%T` would print. -/
inductive DType : Type where
  | charT (c : Common)
  | intT (c : Common)
  | ucharT (c : Common)
  | uintT (c : Common)
  | addrT (c : Common)
  | boolT (c : Common)
  | floatT (c : Common)
  | complexT (c : Common)
  | ptrT (c : Common) (pointee : DType)
  | sliceT (c : Common) (hfields : List (SFieldG DType)) (elem : DType)
  | arrayT (c : Common) (elem : DType) (count : Int) (strideBitSize : Int)
  | structT (c : Common) (fields : List (SFieldG DType))
  | typedefT (c : Common) (target : DType)
  | mapT (c : Common) (key : DType) (elem : DType)
  | stringT (c : Common) (hfields : List (SFieldG DType))
  | chanT (c : Common) (repr : DType) (elem : DType)
  | funcT (c : Common)
  | interfaceT (c : Common)
  | otherT (c : Common) (name : String)

abbrev SField := SFieldG DType

/-- `t.Common()` of the source: every variant carries its common data. -/
def DType.common : DType → Common
  | .charT c | .intT c | .ucharT c | .uintT c | .addrT c | .boolT c
  | .floatT c | .complexT c | .ptrT c _ | .sliceT c _ _ | .arrayT c _ _ _
  | .structT c _ | .typedefT c _ | .mapT c _ _ | .stringT c _
  | .chanT c _ _ | .funcT c | .interfaceT c | .otherT c _ => c

/-- Decode errors.  The Go code builds flat error strings with
`fmt.Errorf`; here each distinct message is a constructor, and
`wrapped ctx e` stands for `fmt.Errorf("ctx: %s", e)`. -/
inductive DErr : Type where
  | invalidSize (n : Int)
  | readFailure
  | invalidIntegerSize (n : Int)
  | invalidUnsignedSize (n : Int)
  | invalidFloatSize (n : Int)
  | invalidComplexSize (n : Int)
  | invalidPointerSize (n : Int)
  | fieldNotFound (name : String)
  | unsupportedFieldType (name : String)
  | inconsistentSlice (capacity length : Nat)
  | alignment
  | chanNotPtr
  | chanNotPtrToStruct
  | unsupportedType (name : String)
  | wrapped (ctx : String) (e : DErr)
deriving DecidableEq

/-- `debug.Array`: a view of an array (address of the first element). -/
structure ArrayV where
  elementTypeID : Nat
  address : Nat
  length : Nat
  strideBits : Nat
deriving DecidableEq

/-- `debug.StructField`: one field view of a decoded struct. -/
structure StructFieldV where
  name : String
  typeID : Nat
  address : Nat
deriving DecidableEq

/-- `debug.Channel`. -/
structure ChannelV where
  elementTypeID : Nat
  address : Nat
  buffer : Nat
  length : Nat
  capacity : Nat
  stride : Nat
  bufferStart : Nat
deriving DecidableEq

/-- `debug.Value`: the tagged union of decode results.  Floats and
complexes are carried as their raw bit patterns. -/
inductive DValue : Type where
  | vInt8 (x : Int)
  | vInt16 (x : Int)
  | vInt32 (x : Int)
  | vInt64 (x : Int)
  | vUint8 (x : Nat)
  | vUint16 (x : Nat)
  | vUint32 (x : Nat)
  | vUint64 (x : Nat)
  | vBool (b : Bool)
  | vFloat32 (bits : Nat)
  | vFloat64 (bits : Nat)
  | vComplex64 (re im : Nat)
  | vComplex128 (re im : Nat)
  | vPointer (typeID address : Nat)
  | vArray (a : ArrayV)
  | vSlice (a : ArrayV) (capacity : Nat)
  | vStruct (fields : List StructFieldV)
  | vMap (typeID address length : Nat)
  | vString (length : Nat) (contents : List Nat)
  | vChannel (ch : ChannelV)
  | vFunc (address : Nat)
  | vInterface
deriving DecidableEq

/-- Target-process memory: a byte (or an unreadable hole) per address. -/
abbrev Mem := Nat → Option Nat

/-- A decode result together with the log of `(address, byteCount)`
reads issued through the memory access port. -/
abbrev DecM (α : Type) : Type := Except DErr α × List (Nat × Nat)

def DecM.pure {α : Type} (a : α) : DecM α := (Except.ok a, [])

def DecM.err {α : Type} (e : DErr) : DecM α := (Except.error e, [])

def DecM.bind {α β : Type} (x : DecM α) (f : α → DecM β) : DecM β :=
  match x with
  | (Except.ok a, l) => ((f a).1, l ++ (f a).2)
  | (Except.error e, l) => (Except.error e, l)

def DecM.mapErr {α : Type} (f : DErr → DErr) : DecM α → DecM α
  | (Except.error e, l) => (Except.error (f e), l)
  | (Except.ok a, l) => (Except.ok a, l)

/-- Modelled from the spec: the Memory Access Port's
`peek(address, byteCount)` primitive.  Reads `n` consecutive bytes
starting at `a`; fails if any byte is unreadable.  Stored values are
reduced mod 256 since the port delivers bytes. -/
def peekMem (m : Mem) (a : Nat) : Nat → Option (List Nat)
  | 0 => some []
  | n + 1 =>
    (m a).bind fun b =>
      (peekMem m (a + 1) n).map fun rest => b % 256 :: rest

/-- Modelled from the spec: the Architecture Decoder's N-byte unsigned
integer decode (`arch.UintN`), for the session's fixed little-endian
byte order. -/
def uintN (buf : List Nat) : Nat :=
  buf.foldr (fun b acc => b + 256 * acc) 0

/-- Modelled from the spec: the Architecture Decoder's N-byte
two's-complement signed integer decode (`arch.IntN`). -/
def intN (buf : List Nat) : Int :=
  if uintN buf < 2 ^ (8 * buf.length - 1) then (uintN buf : Int)
  else (uintN buf : Int) - 2 ^ (8 * buf.length)

/-- Go's `uint64(x)` conversion on an `int64` value. -/
def toUint64 (x : Int) : Nat := (x % (2 : Int) ^ 64).toNat

/-- Go's truncating conversion from `uint64` down to a `w`-bit unsigned
integer (`uint8`/`uint16`/`uint32`). -/
def truncU (w : Nat) (x : Nat) : Nat := x % 2 ^ w

/-- Go's truncating conversion from `int64` down to a `w`-bit signed
integer (`int8`/`int16`/`int32`), two's-complement wraparound. -/
def truncI (w : Nat) (x : Int) : Int :=
  (x + 2 ^ (w - 1)) % 2 ^ w - 2 ^ (w - 1)

/-- Go's `uint64` multiplication (wraps mod `2^64`). -/
def mul64 (a b : Nat) : Nat := a * b % 2 ^ 64

/-- The server state `value` runs against: the target memory, the
architecture's pointer size in bytes, and the pluggable map-length
strategy (`peekMapLength`, a runtime-layout-specific algorithm the spec
leaves unspecified). -/
structure Server where
  mem : Mem
  pointerSize : Nat
  mapLen : DType → Nat → DecM Nat

/-- Read `n` bytes at `a` and decode them as an unsigned integer,
logging the read. -/
def peekUintAt (srv : Server) (a n : Nat) : DecM Nat :=
  ((peekMem srv.mem a n).elim (Except.error DErr.readFailure)
    (fun buf => Except.ok (uintN buf)), [(a, n)])

/-- Read `n` bytes at `a` and decode them as a signed integer widened
to `uint64` (Go `uint64(int64)` wraparound), logging the read. -/
def peekIntAt (srv : Server) (a n : Nat) : DecM Nat :=
  ((peekMem srv.mem a n).elim (Except.error DErr.readFailure)
    (fun buf => Except.ok (toUint64 (intN buf))), [(a, n)])

/-- Modelled from the spec: the Memory Access Port's
`peekPtr(address)` primitive — read one pointer-width value. -/
def peekPtr (srv : Server) (a : Nat) : DecM Nat :=
  peekUintAt srv a srv.pointerSize

/-- Modelled from the spec: `peekBytes` — read a buffer of `n` bytes. -/
def peekBytes (srv : Server) (a n : Nat) : DecM (List Nat) :=
  ((peekMem srv.mem a n).elim (Except.error DErr.readFailure) Except.ok,
    [(a, n)])

/-- Whether a field's declared type is a pointer/address kind, as
required of pointer-valued header fields. -/
def isPtrKind : DType → Bool
  | .ptrT _ _ => true
  | .addrT _ => true
  | _ => false

/-- The address of a struct field: base plus declared byte offset, in
`uint64` arithmetic. -/
def fieldAddr (base : Nat) (f : SField) : Nat :=
  (base + toUint64 f.byteOffset) % 2 ^ 64

/-- Modelled from the spec: the Field Accessor's `readPointerField`
(`Server.peekPtrStructField`, not under `src/`): linear scan for an
exact name match, then a pointer-width read at `base + byteOffset`;
`FieldNotFound` when no field matches, `UnsupportedFieldType` when the
matched field is not of pointer/address kind. -/
def peekPtrStructField (srv : Server) (fields : List SField) (base : Nat)
    (fieldName : String) : DecM Nat :=
  match fields.find? (fun f => f.name == fieldName) with
  | none => DecM.err (DErr.fieldNotFound fieldName)
  | some f =>
    if isPtrKind f.type then peekUintAt srv (fieldAddr base f) srv.pointerSize
    else DecM.err (DErr.unsupportedFieldType fieldName)

/-- Modelled from the spec: the Field Accessor's `readIntegerField`
(`Server.peekUintOrIntStructField`, not under `src/`): same lookup,
accepting a signed or an unsigned integer field type, decoded at the
field's natural width and widened to a 64-bit unsigned result. -/
def peekUintOrIntStructField (srv : Server) (fields : List SField)
    (base : Nat) (fieldName : String) : DecM Nat :=
  match fields.find? (fun f => f.name == fieldName) with
  | none => DecM.err (DErr.fieldNotFound fieldName)
  | some f =>
    match f.type with
    | DType.uintT c => peekUintAt srv (fieldAddr base f) c.byteSize.toNat
    | DType.intT c => peekIntAt srv (fieldAddr base f) c.byteSize.toNat
    | _ => DecM.err (DErr.unsupportedFieldType fieldName)

/-- `readBasic` of `Server.value`: validate the byte size against
{1,2,4,8,16}, then read that many bytes at `addr`. -/
def readBasic (srv : Server) (addr : Nat) (n : Int) : DecM (List Nat) :=
  if n = 1 ∨ n = 2 ∨ n = 4 ∨ n = 8 ∨ n = 16 then
    ((peekMem srv.mem addr n.toNat).elim (Except.error DErr.readFailure)
      Except.ok, [(addr, n.toNat)])
  else (Except.error (DErr.invalidSize n), [])

/-- The `CharType`/`IntType` case of `Server.value`: read, decode via
`arch.IntN`, and wrap in the width-matching signed case. -/
def decodeInt (srv : Server) (addr : Nat) (bs : Int) : DecM DValue :=
  DecM.bind (DecM.mapErr (DErr.wrapped "reading integer")
      (readBasic srv addr bs)) fun buf =>
    if bs = 1 then DecM.pure (DValue.vInt8 (truncI 8 (intN buf)))
    else if bs = 2 then DecM.pure (DValue.vInt16 (truncI 16 (intN buf)))
    else if bs = 4 then DecM.pure (DValue.vInt32 (truncI 32 (intN buf)))
    else if bs = 8 then DecM.pure (DValue.vInt64 (intN buf))
    else DecM.err (DErr.invalidIntegerSize bs)

/-- The `UcharType`/`UintType`/`AddrType` case of `Server.value`. -/
def decodeUint (srv : Server) (addr : Nat) (bs : Int) : DecM DValue :=
  DecM.bind (DecM.mapErr (DErr.wrapped "reading unsigned integer")
      (readBasic srv addr bs)) fun buf =>
    if bs = 1 then DecM.pure (DValue.vUint8 (truncU 8 (uintN buf)))
    else if bs = 2 then DecM.pure (DValue.vUint16 (truncU 16 (uintN buf)))
    else if bs = 4 then DecM.pure (DValue.vUint32 (truncU 32 (uintN buf)))
    else if bs = 8 then DecM.pure (DValue.vUint64 (uintN buf))
    else DecM.err (DErr.invalidUnsignedSize bs)

/-- The `BoolType` case of `Server.value`: any nonzero byte in the
buffer yields `true`. -/
def decodeBool (srv : Server) (addr : Nat) (bs : Int) : DecM DValue :=
  DecM.bind (DecM.mapErr (DErr.wrapped "reading boolean")
      (readBasic srv addr bs)) fun buf =>
    DecM.pure (DValue.vBool (buf.any (fun b => b != 0)))

/-- The `FloatType` case of `Server.value`. -/
def decodeFloat (srv : Server) (addr : Nat) (bs : Int) : DecM DValue :=
  DecM.bind (DecM.mapErr (DErr.wrapped "reading float")
      (readBasic srv addr bs)) fun buf =>
    if bs = 4 then DecM.pure (DValue.vFloat32 (uintN buf))
    else if bs = 8 then DecM.pure (DValue.vFloat64 (uintN buf))
    else DecM.err (DErr.invalidFloatSize bs)

/-- The `ComplexType` case of `Server.value`: a pair of floats of half
the total width. -/
def decodeComplex (srv : Server) (addr : Nat) (bs : Int) : DecM DValue :=
  DecM.bind (DecM.mapErr (DErr.wrapped "reading complex")
      (readBasic srv addr bs)) fun buf =>
    if bs = 8 then
      DecM.pure (DValue.vComplex64 (uintN (buf.take 4)) (uintN (buf.drop 4)))
    else if bs = 16 then
      DecM.pure (DValue.vComplex128 (uintN (buf.take 8)) (uintN (buf.drop 8)))
    else DecM.err (DErr.invalidComplexSize bs)

/-- `Server.value` of `src/server/value.go`: parse the memory at `addr`
as a value of type `t`, dispatching on the type-descriptor variant. -/
def value (srv : Server) : DType → Nat → DecM DValue
  | DType.charT c, addr => decodeInt srv addr c.byteSize
  | DType.intT c, addr => decodeInt srv addr c.byteSize
  | DType.ucharT c, addr => decodeUint srv addr c.byteSize
  | DType.uintT c, addr => decodeUint srv addr c.byteSize
  | DType.addrT c, addr => decodeUint srv addr c.byteSize
  | DType.boolT c, addr => decodeBool srv addr c.byteSize
  | DType.floatT c, addr => decodeFloat srv addr c.byteSize
  | DType.complexT c, addr => decodeComplex srv addr c.byteSize
  | DType.ptrT c pointee, addr =>
    if c.byteSize = (srv.pointerSize : Int) then
      DecM.bind (DecM.mapErr (DErr.wrapped "reading pointer")
          (readBasic srv addr c.byteSize)) fun buf =>
        DecM.pure (DValue.vPointer pointee.common.offset (uintN buf))
    else DecM.err (DErr.invalidPointerSize c.byteSize)
  | DType.sliceT _c hfields elem, addr =>
    DecM.bind (DecM.mapErr (DErr.wrapped "reading slice location")
        (peekPtrStructField srv hfields addr "array")) fun ptr =>
    DecM.bind (DecM.mapErr (DErr.wrapped "reading slice length")
        (peekUintOrIntStructField srv hfields addr "len")) fun length =>
    DecM.bind (DecM.mapErr (DErr.wrapped "reading slice capacity")
        (peekUintOrIntStructField srv hfields addr "cap")) fun capacity =>
    if capacity < length then
      DecM.err (DErr.inconsistentSlice capacity length)
    else
      DecM.pure (DValue.vSlice
        ⟨elem.common.offset, ptr, length,
          mul64 (toUint64 elem.common.byteSize) 8⟩ capacity)
  | DType.arrayT _c elem count stride, addr =>
    if stride % 8 ≠ 0 then DecM.err DErr.alignment
    else
      DecM.pure (DValue.vArray
        ⟨elem.common.offset, addr, toUint64 count, toUint64 stride⟩)
  | DType.structT _c fields, addr =>
    DecM.pure (DValue.vStruct (fields.map fun f =>
      ⟨f.name, f.type.common.offset, fieldAddr addr f⟩))
  | DType.typedefT _c target, addr => value srv target addr
  | DType.mapT c key elem, addr =>
    DecM.bind (srv.mapLen (DType.mapT c key elem) addr) fun length =>
      DecM.pure (DValue.vMap c.offset addr length)
  | DType.stringT _c hfields, addr =>
    DecM.bind (DecM.mapErr (DErr.wrapped "reading string location")
        (peekPtrStructField srv hfields addr "str")) fun ptr =>
    DecM.bind (DecM.mapErr (DErr.wrapped "reading string length")
        (peekUintOrIntStructField srv hfields addr "len")) fun length =>
    DecM.bind (DecM.mapErr (DErr.wrapped "reading string contents")
        (peekBytes srv ptr (if 256 < length then 256 else length))) fun data =>
    DecM.pure (DValue.vString length data)
  | DType.chanT _c (DType.ptrT _pc (DType.structT _sc hfields)) elem, addr =>
    DecM.bind (DecM.mapErr (DErr.wrapped "reading channel pointer")
        (peekPtr srv addr)) fun a =>
    if a = 0 then
      DecM.pure (DValue.vChannel
        ⟨elem.common.offset, 0, 0, 0, 0, toUint64 elem.common.byteSize, 0⟩)
    else
      DecM.bind (DecM.mapErr (DErr.wrapped "reading channel buffer location")
          (peekPtrStructField srv hfields a "buf")) fun buf =>
      DecM.bind (DecM.mapErr (DErr.wrapped "reading channel length")
          (peekUintOrIntStructField srv hfields a "qcount")) fun qcount =>
      DecM.bind (DecM.mapErr (DErr.wrapped "reading channel capacity")
          (peekUintOrIntStructField srv hfields a "dataqsiz")) fun capacity =>
      DecM.bind (DecM.mapErr (DErr.wrapped "reading channel buffer index")
          (peekUintOrIntStructField srv hfields a "recvx")) fun recvx =>
      DecM.pure (DValue.vChannel
        ⟨elem.common.offset, a, buf, qcount, capacity,
          toUint64 elem.common.byteSize, recvx⟩)
  | DType.chanT _c (DType.ptrT _pc _other) _elem, _addr =>
    DecM.err DErr.chanNotPtrToStruct
  | DType.chanT _c _repr _elem, _addr => DecM.err DErr.chanNotPtr
  | DType.funcT _c, addr =>
    DecM.bind (DecM.mapErr (DErr.wrapped "reading func")
        (peekPtr srv addr)) fun a =>
      DecM.pure (DValue.vFunc a)
  | DType.interfaceT _c, _addr => DecM.pure DValue.vInterface
  | DType.otherT _c name, _addr => DecM.err (DErr.unsupportedType name)

/-! Helper predicates and sample states used by the theorems below. -/

/-- Whether a decode attempt ended in an error. -/
def decodeErrored (x : DecM DValue) : Bool :=
  match x.1 with
  | Except.error _ => true
  | Except.ok _ => false

/-- Whether a channel type's internal representation is a pointer to a
struct, as the decoder's channel case requires. -/
def chanReprOk : DType → Bool
  | DType.ptrT _ (DType.structT _ _) => true
  | _ => false

/-- All-zero, fully readable memory. -/
def memZero : Mem := fun _ => some 0

/-- A sample server over all-zero memory with 8-byte pointers. -/
def srvZero : Server := ⟨memZero, 8, fun _ _ => DecM.err DErr.readFailure⟩

/-- `toUint64` is plain `toNat` on in-range values. -/
theorem toUint64_of_lt {x : Int} (h0 : 0 ≤ x) (h1 : x < 2 ^ 64) :
    toUint64 x = x.toNat := by
  unfold toUint64
  rw [Int.emod_eq_of_lt h0 h1]

/-! Claim theorems. -/

/-- C5: decoding a typedef/alias type at an address returns exactly the
same result — value or error, and the same reads — as decoding its
target type directly at that address, for every server state. -/
theorem c5_typedef_transparent (srv : Server) (c : Common) (target : DType)
    (addr : Nat) :
    value srv (DType.typedefT c target) addr = value srv target addr := rfl

/-- C9: decoding a type-descriptor variant with no decoding rule fails
with an `UnsupportedType` error naming the variant, produces no value,
and performs no memory read, at every address. -/
theorem c9_unsupported_type (srv : Server) (c : Common) (name : String)
    (addr : Nat) :
    value srv (DType.otherT c name) addr
      = (Except.error (DErr.unsupportedType name), []) := rfl

/-- C7: decoding a struct type succeeds with one field view per
declared field, in declaration order, carrying the field's name, its
type identifier and the base address plus the field's byte offset
(`uint64` arithmetic), reads no memory, and the emitted address is the
plain sum whenever offset and sum are in range. -/
theorem c7_struct_views (srv : Server) (c : Common) (fields : List SField)
    (addr : Nat) :
    value srv (DType.structT c fields) addr
      = (Except.ok (DValue.vStruct (fields.map fun f =>
          ⟨f.name, f.type.common.offset, fieldAddr addr f⟩)), [])
    ∧ ∀ f, f ∈ fields → 0 ≤ f.byteOffset →
        addr + f.byteOffset.toNat < 2 ^ 64 →
        fieldAddr addr f = addr + f.byteOffset.toNat := by
  constructor
  · rfl
  · intro f _ h0 hlt
    have hb : f.byteOffset < (2 : Int) ^ 64 := by
      have h1 : f.byteOffset.toNat < 2 ^ 64 := by omega
      have h2 : ((2 : Nat) ^ 64 : Int) = (2 : Int) ^ 64 := by norm_cast
      omega
    unfold fieldAddr
    rw [toUint64_of_lt h0 hb]
    have hn : (2 : Nat) ^ 64 = 18446744073709551616 := by norm_num
    rw [hn] at hlt ⊢
    omega

/-- C7 witness: the spec's example struct `{a at offset 0, b at offset 8}`
at address 100 decodes to field views at 100 and 108. -/
theorem c7_struct_views_witness :
    value srvZero
        (DType.structT ⟨16, 5⟩
          [⟨"a", DType.intT ⟨4, 10⟩, 0⟩, ⟨"b", DType.intT ⟨8, 11⟩, 8⟩]) 100
      = (Except.ok (DValue.vStruct
          [⟨"a", 10, 100⟩, ⟨"b", 11, 108⟩]), [])
    ∧ fieldAddr 100 ⟨"b", DType.intT ⟨8, 11⟩, 8⟩ = 108 := by
  have h := c7_struct_views srvZero ⟨16, 5⟩
    [⟨"a", DType.intT ⟨4, 10⟩, 0⟩, ⟨"b", DType.intT ⟨8, 11⟩, 8⟩] 100
  refine ⟨h.1, ?_⟩
  have := h.2 ⟨"b", DType.intT ⟨8, 11⟩, 8⟩ (by simp) (by norm_num) (by decide)
  simpa using this

/-- C8: decoding an array type fails with the alignment error exactly
when the declared bit stride is not divisible by 8; otherwise it
succeeds with no memory read, yielding an array view at the given
address whose length is the type's static count and whose stride is the
declared stride (plain values whenever count and stride are in
`uint64` range). -/
theorem c8_array_alignment (srv : Server) (c : Common) (elem : DType)
    (count stride : Int) (addr : Nat) :
    (stride % 8 ≠ 0 →
      value srv (DType.arrayT c elem count stride) addr
        = (Except.error DErr.alignment, []))
    ∧ (stride % 8 = 0 →
      value srv (DType.arrayT c elem count stride) addr
        = (Except.ok (DValue.vArray
            ⟨elem.common.offset, addr, toUint64 count, toUint64 stride⟩), []))
    ∧ (0 ≤ count → count < 2 ^ 64 → toUint64 count = count.toNat)
    ∧ (0 ≤ stride → stride < 2 ^ 64 → toUint64 stride = stride.toNat) := by
  refine ⟨fun h => ?_, fun h => ?_, fun h0 h1 => toUint64_of_lt h0 h1,
    fun h0 h1 => toUint64_of_lt h0 h1⟩
  · simp only [value, if_pos h]
    rfl
  · simp only [value, h, ne_eq, not_true_eq_false, if_false]
    rfl

/-- C8 witness: the spec's example — an array type with `strideBits=12`
fails with the alignment error; with `strideBits=16` it succeeds. -/
theorem c8_array_alignment_witness :
    value srvZero (DType.arrayT ⟨40, 2⟩ (DType.intT ⟨2, 3⟩) 5 12) 100
      = (Except.error DErr.alignment, [])
    ∧ value srvZero (DType.arrayT ⟨40, 2⟩ (DType.intT ⟨2, 3⟩) 5 16) 100
      = (Except.ok (DValue.vArray ⟨3, 100, 5, 16⟩), []) := by
  constructor
  · exact (c8_array_alignment srvZero ⟨40, 2⟩ (DType.intT ⟨2, 3⟩) 5 12 100).1
      (by norm_num)
  · have := (c8_array_alignment srvZero ⟨40, 2⟩ (DType.intT ⟨2, 3⟩) 5 16
      100).2.1 (by norm_num)
    simpa [toUint64] using this

/-- C10: decoding a channel type whose internal representation is not a
pointer to a struct fails with an error before performing any memory
read, at every address and server state. -/
theorem c10_chan_bad_repr (srv : Server) (c : Common) (repr elem : DType)
    (addr : Nat) (h : chanReprOk repr = false) :
    (value srv (DType.chanT c repr elem) addr).2 = []
    ∧ ∃ e, (value srv (DType.chanT c repr elem) addr).1 = Except.error e := by
  cases repr with
  | ptrT pc pointee =>
    cases pointee with
    | structT sc sfields => simp [chanReprOk] at h
    | charT c => exact ⟨rfl, _, rfl⟩
    | intT c => exact ⟨rfl, _, rfl⟩
    | ucharT c => exact ⟨rfl, _, rfl⟩
    | uintT c => exact ⟨rfl, _, rfl⟩
    | addrT c => exact ⟨rfl, _, rfl⟩
    | boolT c => exact ⟨rfl, _, rfl⟩
    | floatT c => exact ⟨rfl, _, rfl⟩
    | complexT c => exact ⟨rfl, _, rfl⟩
    | ptrT c p => exact ⟨rfl, _, rfl⟩
    | sliceT c hf e => exact ⟨rfl, _, rfl⟩
    | arrayT c e n s => exact ⟨rfl, _, rfl⟩
    | typedefT c t => exact ⟨rfl, _, rfl⟩
    | mapT c k e => exact ⟨rfl, _, rfl⟩
    | stringT c hf => exact ⟨rfl, _, rfl⟩
    | chanT c r e => exact ⟨rfl, _, rfl⟩
    | funcT c => exact ⟨rfl, _, rfl⟩
    | interfaceT c => exact ⟨rfl, _, rfl⟩
    | otherT c n => exact ⟨rfl, _, rfl⟩
  | charT c => exact ⟨rfl, _, rfl⟩
  | intT c => exact ⟨rfl, _, rfl⟩
  | ucharT c => exact ⟨rfl, _, rfl⟩
  | uintT c => exact ⟨rfl, _, rfl⟩
  | addrT c => exact ⟨rfl, _, rfl⟩
  | boolT c => exact ⟨rfl, _, rfl⟩
  | floatT c => exact ⟨rfl, _, rfl⟩
  | complexT c => exact ⟨rfl, _, rfl⟩
  | sliceT c hf e => exact ⟨rfl, _, rfl⟩
  | arrayT c e n s => exact ⟨rfl, _, rfl⟩
  | structT c fs => exact ⟨rfl, _, rfl⟩
  | typedefT c t => exact ⟨rfl, _, rfl⟩
  | mapT c k e => exact ⟨rfl, _, rfl⟩
  | stringT c hf => exact ⟨rfl, _, rfl⟩
  | chanT c r e => exact ⟨rfl, _, rfl⟩
  | funcT c => exact ⟨rfl, _, rfl⟩
  | interfaceT c => exact ⟨rfl, _, rfl⟩
  | otherT c n => exact ⟨rfl, _, rfl⟩

/-- C1 counterexample: over all-zero readable memory, a nil channel of
8-byte elements decodes successfully after the single header-pointer
read, but the resulting `Channel`'s stride field is 8, not 0 — so not
all numeric fields of the result are 0. -/
theorem c1_nil_channel_cex :
    value srvZero
        (DType.chanT ⟨8, 0⟩ (DType.ptrT ⟨8, 1⟩ (DType.structT ⟨96, 2⟩ []))
          (DType.intT ⟨8, 7⟩)) 100
      = (Except.ok (DValue.vChannel ⟨7, 0, 0, 0, 0, 8, 0⟩), [(100, 8)])
    ∧ ChannelV.stride ⟨7, 0, 0, 0, 0, 8, 0⟩ ≠ 0 :=
  ⟨rfl, by norm_num⟩

/-- C1 amended: for every channel type whose internal representation is
a pointer to a struct, if the pointer-width value read at the address
is zero, decode returns a `Channel` whose header address, buffer
address, length, capacity and buffer read offset are all 0 and whose
stride equals the element type's byte size, and the only memory read
performed is that single header-pointer read. -/
theorem c1_nil_channel (srv : Server) (c pc sc : Common)
    (hfields : List SField) (elem : DType) (addr : Nat) (bs : List Nat)
    (hpeek : peekMem srv.mem addr srv.pointerSize = some bs)
    (hz : uintN bs = 0) :
    value srv
        (DType.chanT c (DType.ptrT pc (DType.structT sc hfields)) elem) addr
      = (Except.ok (DValue.vChannel
          ⟨elem.common.offset, 0, 0, 0, 0, toUint64 elem.common.byteSize, 0⟩),
        [(addr, srv.pointerSize)]) := by
  simp [value, peekPtr, peekUintAt, hpeek, hz, DecM.mapErr, DecM.bind,
    DecM.pure]

/-- C1 witness: the amended nil-channel behavior at a concrete server,
channel type and address. -/
theorem c1_nil_channel_witness :
    value srvZero
        (DType.chanT ⟨8, 20⟩ (DType.ptrT ⟨8, 21⟩ (DType.structT ⟨96, 22⟩ []))
          (DType.intT ⟨4, 37⟩)) 200
      = (Except.ok (DValue.vChannel ⟨37, 0, 0, 0, 0, 4, 0⟩), [(200, 8)]) := by
  have h := c1_nil_channel srvZero ⟨8, 20⟩ ⟨8, 21⟩ ⟨96, 22⟩ []
    (DType.intT ⟨4, 37⟩) 200 [0, 0, 0, 0, 0, 0, 0, 0] rfl rfl
  simpa [toUint64, DType.common] using h

/-- `readBasic` with a byte size outside {1,2,4,8,16} fails with
`InvalidSize` before reading. -/
theorem readBasic_invalid (srv : Server) (addr : Nat) (n : Int)
    (h : ¬(n = 1 ∨ n = 2 ∨ n = 4 ∨ n = 8 ∨ n = 16)) :
    readBasic srv addr n = (Except.error (DErr.invalidSize n), []) := by
  unfold readBasic
  rw [if_neg h]

/-- The signed-integer case errors for every byte size outside
{1,2,4,8}: sizes outside {1,2,4,8,16} die in `readBasic`, and size 16
dies in the width switch (or in the read itself). -/
theorem decodeInt_fails (srv : Server) (addr : Nat) (bs : Int)
    (h : ¬(bs = 1 ∨ bs = 2 ∨ bs = 4 ∨ bs = 8)) :
    decodeErrored (decodeInt srv addr bs) = true := by
  unfold decodeInt
  by_cases h16 : bs = 16
  · subst h16
    unfold readBasic
    rw [if_pos (by norm_num)]
    cases hp : peekMem srv.mem addr ((16 : Int).toNat) with
    | none => simp [hp, DecM.mapErr, DecM.bind, decodeErrored]
    | some buf =>
      simp [hp, DecM.mapErr, DecM.bind, decodeErrored, DecM.err, DecM.pure]
  · rw [readBasic_invalid srv addr bs (by tauto)]
    simp [DecM.mapErr, DecM.bind, decodeErrored]

/-- The unsigned-integer case errors for every byte size outside
{1,2,4,8}. -/
theorem decodeUint_fails (srv : Server) (addr : Nat) (bs : Int)
    (h : ¬(bs = 1 ∨ bs = 2 ∨ bs = 4 ∨ bs = 8)) :
    decodeErrored (decodeUint srv addr bs) = true := by
  unfold decodeUint
  by_cases h16 : bs = 16
  · subst h16
    unfold readBasic
    rw [if_pos (by norm_num)]
    cases hp : peekMem srv.mem addr ((16 : Int).toNat) with
    | none => simp [hp, DecM.mapErr, DecM.bind, decodeErrored]
    | some buf =>
      simp [hp, DecM.mapErr, DecM.bind, decodeErrored, DecM.err, DecM.pure]
  · rw [readBasic_invalid srv addr bs (by tauto)]
    simp [DecM.mapErr, DecM.bind, decodeErrored]

/-- The boolean case errors for every byte size outside {1,2,4,8,16}. -/
theorem decodeBool_fails (srv : Server) (addr : Nat) (bs : Int)
    (h : ¬(bs = 1 ∨ bs = 2 ∨ bs = 4 ∨ bs = 8 ∨ bs = 16)) :
    decodeErrored (decodeBool srv addr bs) = true := by
  unfold decodeBool
  rw [readBasic_invalid srv addr bs h]
  simp [DecM.mapErr, DecM.bind, decodeErrored]

/-- C2 counterexample: a Bool type of byte size 16 over readable memory
decodes successfully to a boolean value — it does not fail. -/
theorem c2_bool16_cex :
    value srvZero (DType.boolT ⟨16, 0⟩) 0
      = (Except.ok (DValue.vBool false), [(0, 16)])
    ∧ decodeErrored (value srvZero (DType.boolT ⟨16, 0⟩) 0) = false :=
  ⟨rfl, rfl⟩

/-- C2 amended: for the Signed/Unsigned/Address integer-like variants,
decode fails whenever the byte size is outside {1,2,4,8}; for Bool,
decode fails whenever the byte size is outside {1,2,4,8,16} (a Bool of
byte size 16 passes `readBasic` and can decode successfully). -/
theorem c2_size_validation (srv : Server) (c : Common) (addr : Nat) :
    (¬(c.byteSize = 1 ∨ c.byteSize = 2 ∨ c.byteSize = 4 ∨ c.byteSize = 8) →
      decodeErrored (value srv (DType.charT c) addr) = true
      ∧ decodeErrored (value srv (DType.intT c) addr) = true
      ∧ decodeErrored (value srv (DType.ucharT c) addr) = true
      ∧ decodeErrored (value srv (DType.uintT c) addr) = true
      ∧ decodeErrored (value srv (DType.addrT c) addr) = true)
    ∧ (¬(c.byteSize = 1 ∨ c.byteSize = 2 ∨ c.byteSize = 4 ∨ c.byteSize = 8 ∨
          c.byteSize = 16) →
      decodeErrored (value srv (DType.boolT c) addr) = true) := by
  constructor
  · intro h
    exact ⟨decodeInt_fails srv addr c.byteSize h,
      decodeInt_fails srv addr c.byteSize h,
      decodeUint_fails srv addr c.byteSize h,
      decodeUint_fails srv addr c.byteSize h,
      decodeUint_fails srv addr c.byteSize h⟩
  · intro h
    exact decodeBool_fails srv addr c.byteSize h

/-- C2 witness: byte size 3 fails for all five integer-like variants
and for Bool. -/
theorem c2_size_validation_witness :
    (decodeErrored (value srvZero (DType.charT ⟨3, 0⟩) 0) = true
      ∧ decodeErrored (value srvZero (DType.intT ⟨3, 0⟩) 0) = true
      ∧ decodeErrored (value srvZero (DType.ucharT ⟨3, 0⟩) 0) = true
      ∧ decodeErrored (value srvZero (DType.uintT ⟨3, 0⟩) 0) = true
      ∧ decodeErrored (value srvZero (DType.addrT ⟨3, 0⟩) 0) = true)
    ∧ decodeErrored (value srvZero (DType.boolT ⟨3, 0⟩) 0) = true := by
  have h := c2_size_validation srvZero ⟨3, 0⟩ 0
  exact ⟨h.1 (by decide), h.2 (by decide)⟩

/-- Reading `n` bytes successfully yields exactly `n` bytes. -/
theorem peekMem_length (m : Mem) :
    ∀ (n a : Nat) (l : List Nat), peekMem m a n = some l → l.length = n := by
  intro n
  induction n with
  | zero =>
    intro a l h
    simp only [peekMem, Option.some.injEq] at h
    simp [← h]
  | succ k ih =>
    intro a l h
    unfold peekMem at h
    cases hm : m a with
    | none => rw [hm] at h; simp at h
    | some b =>
      rw [hm] at h
      cases hp : peekMem m (a + 1) k with
      | none => rw [hp] at h; simp at h
      | some rest =>
        rw [hp] at h
        simp at h
        have := ih (a + 1) rest hp
        simp [← h, this]

/-- Memory for the slice-decode witness: a slice header at 100 with
`array = 0`, `len = 3` (at 108) and `cap = 5` (at 116). -/
def mem3 : Mem := fun i =>
  if i = 108 then some 3 else if i = 116 then some 5 else some 0

def srv3 : Server := ⟨mem3, 8, fun _ _ => DecM.err DErr.readFailure⟩

/-- The slice header struct's declared fields. -/
def fields3 : List SField :=
  [⟨"array", DType.ptrT ⟨8, 30⟩ (DType.intT ⟨4, 31⟩), 0⟩,
    ⟨"len", DType.uintT ⟨8, 32⟩, 8⟩,
    ⟨"cap", DType.uintT ⟨8, 33⟩, 16⟩]

/-- C3: when a slice header's three fields are readable, decode fails
with `InconsistentSlice` exactly when the decoded capacity is below the
decoded length; otherwise it succeeds with a `Slice` wrapping an
`Array` view at the decoded `array` pointer with the decoded length and
capacity and `strideBits` equal to the element byte size times 8 (in
`uint64` arithmetic; the plain product whenever it is in range). -/
theorem c3_slice_decode (srv : Server) (c : Common) (hfields : List SField)
    (elem : DType) (addr : Nat) (p L Cp : Nat) (l1 l2 l3 : List (Nat × Nat))
    (h1 : peekPtrStructField srv hfields addr "array" = (Except.ok p, l1))
    (h2 : peekUintOrIntStructField srv hfields addr "len" = (Except.ok L, l2))
    (h3 : peekUintOrIntStructField srv hfields addr "cap"
      = (Except.ok Cp, l3)) :
    (Cp < L →
      value srv (DType.sliceT c hfields elem) addr
        = (Except.error (DErr.inconsistentSlice Cp L), l1 ++ l2 ++ l3))
    ∧ (L ≤ Cp →
      value srv (DType.sliceT c hfields elem) addr
        = (Except.ok (DValue.vSlice
            ⟨elem.common.offset, p, L, mul64 (toUint64 elem.common.byteSize) 8⟩
            Cp), l1 ++ l2 ++ l3))
    ∧ (0 ≤ elem.common.byteSize → elem.common.byteSize.toNat * 8 < 2 ^ 64 →
        mul64 (toUint64 elem.common.byteSize) 8
          = elem.common.byteSize.toNat * 8) := by
  refine ⟨fun h => ?_, fun h => ?_, fun hb hlt => ?_⟩
  · simp [value, h1, h2, h3, DecM.mapErr, DecM.bind, DecM.err, h,
      List.append_assoc]
  · simp [value, h1, h2, h3, DecM.mapErr, DecM.bind, DecM.pure,
      if_neg (Nat.not_lt.mpr h), List.append_assoc]
  · have e1 : (2 : Int) ^ 64 = 18446744073709551616 := by norm_num
    have e2 : (2 : Nat) ^ 64 = 18446744073709551616 := by norm_num
    have hbn : elem.common.byteSize < (2 : Int) ^ 64 := by
      rw [e1]
      rw [e2] at hlt
      omega
    unfold mul64
    rw [toUint64_of_lt hb hbn, Nat.mod_eq_of_lt hlt]

/-- C3 witness: the spec's example — a header with `len=3, cap=5`
succeeds with `Array.Length = 3` and capacity 5; the element is a
4-byte integer, so the stride is 32 bits. -/
theorem c3_slice_decode_witness :
    value srv3 (DType.sliceT ⟨24, 40⟩ fields3 (DType.intT ⟨4, 31⟩)) 100
      = (Except.ok (DValue.vSlice ⟨31, 0, 3, 32⟩ 5),
        [(100, 8), (108, 8), (116, 8)]) := by
  have h := (c3_slice_decode srv3 ⟨24, 40⟩ fields3 (DType.intT ⟨4, 31⟩) 100
    0 3 5 [(100, 8)] [(108, 8)] [(116, 8)] rfl rfl rfl).2.1 (by norm_num)
  exact h

/-- Memory for the string-decode witness: a string header at 100 with
`str = 300` and `len = 1000` (at 108); the bytes from 300 on are 65. -/
def mem4 : Mem := fun i =>
  if i = 100 then some 44 else if i = 101 then some 1
  else if i = 108 then some 232 else if i = 109 then some 3
  else if i < 300 then some 0 else some 65

def srv4 : Server := ⟨mem4, 8, fun _ _ => DecM.err DErr.readFailure⟩

/-- The string header struct's declared fields. -/
def fields4 : List SField :=
  [⟨"str", DType.ptrT ⟨8, 50⟩ (DType.ucharT ⟨1, 51⟩), 0⟩,
    ⟨"len", DType.uintT ⟨8, 52⟩, 8⟩]

/-- C4: when a string header is readable and declares length `L` and
the referenced bytes are readable, decode succeeds with a `String`
whose declared length field is `L` and whose materialized preview holds
exactly `min L 256` bytes, and only `min L 256 ≤ 256` bytes of the
referenced string data are read. -/
theorem c4_string_decode (srv : Server) (c : Common) (hfields : List SField)
    (addr : Nat) (p L : Nat) (l1 l2 : List (Nat × Nat)) (data : List Nat)
    (h1 : peekPtrStructField srv hfields addr "str" = (Except.ok p, l1))
    (h2 : peekUintOrIntStructField srv hfields addr "len" = (Except.ok L, l2))
    (h3 : peekMem srv.mem p (min L 256) = some data) :
    value srv (DType.stringT c hfields) addr
      = (Except.ok (DValue.vString L data), l1 ++ l2 ++ [(p, min L 256)])
    ∧ data.length = min L 256 ∧ min L 256 ≤ 256 := by
  have hmin : (if 256 < L then 256 else L) = min L 256 := by
    rcases Nat.lt_or_ge 256 L with hc | hc
    · rw [if_pos hc]
      omega
    · rw [if_neg (by omega)]
      omega
  refine ⟨?_, peekMem_length srv.mem _ _ _ h3, by omega⟩
  simp [value, h1, h2, DecM.mapErr, DecM.bind, DecM.pure, peekBytes, hmin, h3,
    List.append_assoc]

/-- C4 witness: the spec's example — a declared length of 1000 over
readable memory materializes a 256-byte preview while the declared
length field still reports 1000. -/
theorem c4_string_decode_witness :
    value srv4 (DType.stringT ⟨16, 60⟩ fields4) 100
      = (Except.ok (DValue.vString 1000 (List.replicate 256 65)),
        [(100, 8), (108, 8), (300, 256)])
    ∧ (List.replicate 256 65).length = 256 := by
  have h := c4_string_decode srv4 ⟨16, 60⟩ fields4 100 300 1000
    [(100, 8)] [(108, 8)] (List.replicate 256 65) rfl rfl (by rfl)
  exact ⟨h.1, by simp⟩

/-- Modelled from the spec: encode a `w`-byte unsigned value in the
session's little-endian byte order (the inverse of `arch.UintN`), for
stating the encode-then-decode round trip. -/
def encodeUintN : Nat → Nat → List Nat
  | 0, _ => []
  | w + 1, v => v % 256 :: encodeUintN w (v / 256)

/-- Modelled from the spec: encode a `w`-byte signed value as its
two's-complement byte string. -/
def encodeIntN (w : Nat) (v : Int) : List Nat :=
  encodeUintN w ((v % (2 : Int) ^ (8 * w)).toNat)

/-- Write a byte string into memory at consecutive addresses. -/
def storeBytes (m : Mem) : Nat → List Nat → Mem
  | _, [] => m
  | a, b :: bs => fun i => if i = a then some b else storeBytes m (a + 1) bs i

/-- The width-tagged unsigned value case for a byte width `w`. -/
def tagUint (w : Nat) (v : Nat) : DValue :=
  if w = 1 then DValue.vUint8 v
  else if w = 2 then DValue.vUint16 v
  else if w = 4 then DValue.vUint32 v
  else DValue.vUint64 v

/-- The width-tagged signed value case for a byte width `w`. -/
def tagInt (w : Nat) (v : Int) : DValue :=
  if w = 1 then DValue.vInt8 v
  else if w = 2 then DValue.vInt16 v
  else if w = 4 then DValue.vInt32 v
  else DValue.vInt64 v

theorem encodeUintN_length (w : Nat) : ∀ v : Nat, (encodeUintN w v).length = w := by
  induction w with
  | zero => intro v; rfl
  | succ k ih => intro v; simp [encodeUintN, ih]

theorem uintN_cons (b : Nat) (bs : List Nat) :
    uintN (b :: bs) = b + 256 * uintN bs := rfl

theorem uintN_encodeUintN (w : Nat) :
    ∀ v : Nat, v < 256 ^ w → uintN (encodeUintN w v) = v := by
  induction w with
  | zero =>
    intro v h
    simp only [pow_zero, Nat.lt_one_iff] at h
    simp [encodeUintN, uintN, h]
  | succ k ih =>
    intro v h
    have hdiv : v / 256 < 256 ^ k := by
      have hp : 256 ^ (k + 1) = 256 ^ k * 256 := by ring
      rw [hp] at h
      omega
    rw [encodeUintN, uintN_cons, ih (v / 256) hdiv]
    omega

theorem encodeUintN_map_mod (w : Nat) :
    ∀ v : Nat, (encodeUintN w v).map (fun b => b % 256) = encodeUintN w v := by
  induction w with
  | zero => intro v; rfl
  | succ k ih =>
    intro v
    simp [encodeUintN, ih, Nat.mod_mod_of_dvd]

/-- Reads depend only on the bytes in the window being read. -/
theorem peekMem_congr (m1 m2 : Mem) :
    ∀ (n a : Nat), (∀ i, a ≤ i → i < a + n → m1 i = m2 i) →
      peekMem m1 a n = peekMem m2 a n := by
  intro n
  induction n with
  | zero => intro a _; rfl
  | succ k ih =>
    intro a h
    show (m1 a).bind _ = (m2 a).bind _
    rw [h a (le_refl a) (by omega),
      ih (a + 1) (fun i h1 h2 => h i (by omega) (by omega))]

/-- Reading back exactly the bytes just stored succeeds and yields
those bytes (reduced to byte range). -/
theorem peekMem_store (m : Mem) :
    ∀ (bs : List Nat) (a : Nat),
      peekMem (storeBytes m a bs) a bs.length
        = some (bs.map (fun b => b % 256)) := by
  intro bs
  induction bs with
  | nil => intro a; rfl
  | cons b rest ih =>
    intro a
    have h1 : storeBytes m a (b :: rest) a = some b := by
      simp [storeBytes]
    have h2 : peekMem (storeBytes m a (b :: rest)) (a + 1) rest.length
        = peekMem (storeBytes m (a + 1) rest) (a + 1) rest.length :=
      peekMem_congr _ _ rest.length (a + 1) (fun i hi1 _ => by
        simp [storeBytes, if_neg (show ¬i = a by omega)])
    rw [List.length_cons,
      show peekMem (storeBytes m a (b :: rest)) a (rest.length + 1)
        = (storeBytes m a (b :: rest) a).bind (fun bb =>
          (peekMem (storeBytes m a (b :: rest)) (a + 1) rest.length).map
            (fun r => bb % 256 :: r)) from rfl,
      h1, h2, ih (a + 1)]
    simp

theorem readBasic_ok (srv : Server) (a : Nat) (w : Nat) (buf : List Nat)
    (hw : w = 1 ∨ w = 2 ∨ w = 4 ∨ w = 8 ∨ w = 16)
    (hp : peekMem srv.mem a w = some buf) :
    readBasic srv a (w : Int) = (Except.ok buf, [(a, w)]) := by
  have hcond : (w : Int) = 1 ∨ (w : Int) = 2 ∨ (w : Int) = 4 ∨
      (w : Int) = 8 ∨ (w : Int) = 16 := by
    rcases hw with h | h | h | h | h <;> subst h <;> norm_num
  have ht : ((w : Int)).toNat = w := by omega
  unfold readBasic
  rw [if_pos hcond, ht, hp]
  rfl

theorem truncU_eq (w v : Nat) (h : v < 2 ^ w) : truncU w v = v :=
  Nat.mod_eq_of_lt h

theorem truncI_eq (w : Nat) (hw : 1 ≤ w) (v : Int)
    (h1 : -(2 : Int) ^ (w - 1) ≤ v) (h2 : v < (2 : Int) ^ (w - 1)) :
    truncI w v = v := by
  unfold truncI
  have hsplit : (2 : Int) ^ w = 2 ^ (w - 1) * 2 := by
    conv_lhs => rw [show w = (w - 1) + 1 by omega]
    rw [pow_succ]
  have hpos : (0 : Int) < 2 ^ (w - 1) := by positivity
  have hmod : (v + 2 ^ (w - 1)) % 2 ^ w = v + 2 ^ (w - 1) :=
    Int.emod_eq_of_lt (by omega) (by omega)
  rw [hmod]
  ring

/-- Decoding the two's-complement encoding of an in-range signed value
recovers the value. -/
theorem intN_encodeIntN (w : Nat) (hw : 1 ≤ w) (v : Int)
    (h1 : -(2 : Int) ^ (8 * w - 1) ≤ v) (h2 : v < (2 : Int) ^ (8 * w - 1)) :
    intN (encodeIntN w v) = v := by
  have hNpos : (0 : Int) < 2 ^ (8 * w) := by positivity
  have hKpos : (0 : Int) < 2 ^ (8 * w - 1) := by positivity
  have hNK : (2 : Int) ^ (8 * w) = 2 ^ (8 * w - 1) * 2 := by
    conv_lhs => rw [show 8 * w = (8 * w - 1) + 1 by omega]
    rw [pow_succ]
  have h256 : (256 : Nat) ^ w = 2 ^ (8 * w) := by
    rw [show (256 : Nat) = 2 ^ 8 by norm_num, ← pow_mul]
  have hcastN : ((2 ^ (8 * w) : Nat) : Int) = (2 : Int) ^ (8 * w) := by
    norm_cast
  have hcastK : ((2 ^ (8 * w - 1) : Nat) : Int) = (2 : Int) ^ (8 * w - 1) := by
    norm_cast
  have hmod_lt : v % 2 ^ (8 * w) < 2 ^ (8 * w) := Int.emod_lt_of_pos v hNpos
  have hmod_nonneg : 0 ≤ v % 2 ^ (8 * w) := Int.emod_nonneg v (by omega)
  have hu : uintN (encodeIntN w v) = (v % (2 : Int) ^ (8 * w)).toNat := by
    unfold encodeIntN
    apply uintN_encodeUintN
    rw [h256]
    omega
  have hlen : (encodeIntN w v).length = w := by
    unfold encodeIntN
    exact encodeUintN_length w _
  unfold intN
  rw [hlen, hu]
  by_cases hv : 0 ≤ v
  · have hve : v % (2 : Int) ^ (8 * w) = v :=
      Int.emod_eq_of_lt hv (by omega)
    rw [hve, if_pos (by omega)]
    omega
  · have key : (v + 2 ^ (8 * w) * 1) % (2 : Int) ^ (8 * w)
        = v % 2 ^ (8 * w) := Int.add_mul_emod_self_left v ((2 : Int) ^ (8 * w)) 1
    have hve : v % (2 : Int) ^ (8 * w) = v + 2 ^ (8 * w) := by
      rw [← key, mul_one]
      exact Int.emod_eq_of_lt (by omega) (by omega)
    rw [hve, if_neg (by omega)]
    omega

/-- The unsigned path decodes the freshly stored encoding of an
in-range value back to the same value, width-tagged. -/
theorem decodeUint_roundtrip (m : Mem) (ps : Nat) (ml : DType → Nat → DecM Nat)
    (a w : Nat) (hw : w = 1 ∨ w = 2 ∨ w = 4 ∨ w = 8) (v : Nat)
    (hv : v < 256 ^ w) :
    decodeUint ⟨storeBytes m a (encodeUintN w v), ps, ml⟩ a (w : Int)
      = (Except.ok (tagUint w v), [(a, w)]) := by
  have hp : peekMem (storeBytes m a (encodeUintN w v)) a w
      = some (encodeUintN w v) := by
    have h := peekMem_store m (encodeUintN w v) a
    rw [encodeUintN_length] at h
    rw [h, encodeUintN_map_mod]
  have hrb := readBasic_ok ⟨storeBytes m a (encodeUintN w v), ps, ml⟩ a w
    (encodeUintN w v) (by tauto) hp
  have hu : uintN (encodeUintN w v) = v := uintN_encodeUintN w v hv
  unfold decodeUint
  rw [hrb]
  rcases hw with h | h | h | h <;> subst h <;>
    simp [DecM.mapErr, DecM.bind, DecM.pure, hu, tagUint]
  · exact truncU_eq 8 v (by norm_num at hv ⊢; omega)
  · exact truncU_eq 16 v (by norm_num at hv ⊢; omega)
  · exact truncU_eq 32 v (by norm_num at hv ⊢; omega)

/-- The signed path decodes the freshly stored two's-complement
encoding of an in-range value back to the same value, width-tagged. -/
theorem decodeInt_roundtrip (m : Mem) (ps : Nat) (ml : DType → Nat → DecM Nat)
    (a w : Nat) (hw : w = 1 ∨ w = 2 ∨ w = 4 ∨ w = 8) (v : Int)
    (h1 : -(2 : Int) ^ (8 * w - 1) ≤ v) (h2 : v < (2 : Int) ^ (8 * w - 1)) :
    decodeInt ⟨storeBytes m a (encodeIntN w v), ps, ml⟩ a (w : Int)
      = (Except.ok (tagInt w v), [(a, w)]) := by
  have hw1 : 1 ≤ w := by omega
  have hp : peekMem (storeBytes m a (encodeIntN w v)) a w
      = some (encodeIntN w v) := by
    have h := peekMem_store m (encodeIntN w v) a
    unfold encodeIntN at h ⊢
    rw [encodeUintN_length] at h
    rw [h, encodeUintN_map_mod]
  have hrb := readBasic_ok ⟨storeBytes m a (encodeIntN w v), ps, ml⟩ a w
    (encodeIntN w v) (by tauto) hp
  have hi : intN (encodeIntN w v) = v := intN_encodeIntN w hw1 v h1 h2
  unfold decodeInt
  rw [hrb]
  rcases hw with h | h | h | h <;> subst h <;>
    simp [DecM.mapErr, DecM.bind, DecM.pure, hi, tagInt]
  · exact truncI_eq 8 (by norm_num) v (by norm_num at h1 ⊢; omega)
      (by norm_num at h2 ⊢; omega)
  · exact truncI_eq 16 (by norm_num) v (by norm_num at h1 ⊢; omega)
      (by norm_num at h2 ⊢; omega)
  · exact truncI_eq 32 (by norm_num) v (by norm_num at h1 ⊢; omega)
      (by norm_num at h2 ⊢; omega)

/-- C6: for every legal width `w` in {1,2,4,8} and every signed or
unsigned integer-like type of byte size `w`, storing the little-endian
encoding of an in-range value at an address and decoding that address
with the type returns the value tagged with exactly width `w` — never
promoted to a wider case. -/
theorem c6_roundtrip (m : Mem) (ps : Nat) (ml : DType → Nat → DecM Nat)
    (c : Common) (a w : Nat) (hw : w = 1 ∨ w = 2 ∨ w = 4 ∨ w = 8)
    (hc : c.byteSize = (w : Int)) :
    (∀ v : Nat, v < 256 ^ w →
      value ⟨storeBytes m a (encodeUintN w v), ps, ml⟩ (DType.uintT c) a
        = (Except.ok (tagUint w v), [(a, w)])
      ∧ value ⟨storeBytes m a (encodeUintN w v), ps, ml⟩ (DType.ucharT c) a
        = (Except.ok (tagUint w v), [(a, w)])
      ∧ value ⟨storeBytes m a (encodeUintN w v), ps, ml⟩ (DType.addrT c) a
        = (Except.ok (tagUint w v), [(a, w)]))
    ∧ (∀ v : Int, -(2 : Int) ^ (8 * w - 1) ≤ v → v < (2 : Int) ^ (8 * w - 1) →
      value ⟨storeBytes m a (encodeIntN w v), ps, ml⟩ (DType.intT c) a
        = (Except.ok (tagInt w v), [(a, w)])
      ∧ value ⟨storeBytes m a (encodeIntN w v), ps, ml⟩ (DType.charT c) a
        = (Except.ok (tagInt w v), [(a, w)])) := by
  constructor
  · intro v hv
    have h := decodeUint_roundtrip m ps ml a w hw v hv
    exact ⟨by simp only [value, hc]; exact h,
      by simp only [value, hc]; exact h,
      by simp only [value, hc]; exact h⟩
  · intro v h1 h2
    have h := decodeInt_roundtrip m ps ml a w hw v h1 h2
    exact ⟨by simp only [value, hc]; exact h,
      by simp only [value, hc]; exact h⟩

/-- C6 witness: at width 1, the unsigned value 200 and the signed value
-5 both round-trip, tagged as the 8-bit cases. -/
theorem c6_roundtrip_witness :
    value ⟨storeBytes memZero 50 (encodeUintN 1 200), 8,
        fun _ _ => DecM.err DErr.readFailure⟩ (DType.uintT ⟨1, 70⟩) 50
      = (Except.ok (tagUint 1 200), [(50, 1)])
    ∧ value ⟨storeBytes memZero 50 (encodeIntN 1 (-5)), 8,
        fun _ _ => DecM.err DErr.readFailure⟩ (DType.intT ⟨1, 70⟩) 50
      = (Except.ok (tagInt 1 (-5)), [(50, 1)]) := by
  have h := c6_roundtrip memZero 8 (fun _ _ => DecM.err DErr.readFailure)
    ⟨1, 70⟩ 50 1 (by norm_num) rfl
  exact ⟨(h.1 200 (by norm_num)).1, (h.2 (-5) (by norm_num) (by norm_num)).1⟩

/-- C10 witness: a channel type represented by a plain integer type
fails with no reads performed. -/
theorem c10_chan_bad_repr_witness :
    chanReprOk (DType.intT ⟨1, 0⟩) = false
    ∧ ((value srvZero
          (DType.chanT ⟨8, 0⟩ (DType.intT ⟨1, 0⟩) (DType.intT ⟨8, 7⟩)) 100).2
        = []
      ∧ ∃ e, (value srvZero
          (DType.chanT ⟨8, 0⟩ (DType.intT ⟨1, 0⟩) (DType.intT ⟨8, 7⟩)) 100).1
        = Except.error e) :=
  ⟨rfl, c10_chan_bad_repr srvZero ⟨8, 0⟩ (DType.intT ⟨1, 0⟩)
    (DType.intT ⟨8, 7⟩) 100 rfl⟩

end GoDebug
